import Mathlib

/-!
Shallow embedding of the wasmd query-routing and message-validation core.

The embedding covers the two source files:
* `x/wasm/internal/keeper/querier.go` — the path-based query dispatcher
  (`newQuerier`) and its handlers (`queryContractInfo`, `queryContractList`,
  `queryContractState`, `queryCode`, `queryCodeList`);
* the message-type file (`MsgStoreCode`, `MsgInstantiateContract`,
  `MsgExecuteContract` and their `ValidateBasic` routines).

External collaborators are parameters of the embedding:
* the keeper interface is a structure of functions (`Keeper`);
* bech32 address decoding/encoding (`sdk.AccAddressFromBech32`,
  `AccAddress.String`) is an `SdkEnv` parameter;
* `net/url.Parse` and `net/http.Get` are a `NetEnv` parameter.

Go byte strings (`[]byte` and `string` both denote byte sequences and the
source only converts between them with the identity-on-bytes `string(...)`
conversion) are modelled as `String`.  Go slices, whose `nil` and empty
states serialize differently (`null` vs `[]`), are modelled as
`Option (List α)` with `none` for the `nil` slice.  JSON serialization
(`json.MarshalIndent`) is modelled as a function into a JSON syntax tree:
`MarshalIndent`'s output bytes are determined by that tree, and it cannot
fail on any of the concrete data types marshalled here, so the marshal-error
branches of the source are unreachable and the model's marshal is total.
-/

/-- Go byte sequence (`[]byte` / `string`). -/
abbrev Bytes := String

/-- `sdk.AccAddress`: raw address bytes. -/
abbrev AccAddress := List Nat

/-- The empty Go string. -/
def emptyStr : String := ""

/-- `types.Model`: one raw key/value entry of a contract's storage
partition; the source stores both fields as Go strings. -/
structure Model where
  key : String
  value : String
  deriving DecidableEq

/-- `types.ContractInfo` metadata (code ID, creator, init message). -/
structure ContractInfo where
  codeID : Nat
  creator : AccAddress
  initMsg : String
  deriving DecidableEq

/-- `types.CodeInfo`: per-code-ID metadata consulted by the list handler. -/
structure CodeInfo where
  creator : AccAddress
  codeHash : String
  deriving DecidableEq

/-- `ListCodeResponse` from querier.go: one entry of the code-list reply. -/
structure ListCodeResponse where
  id : Nat
  creator : AccAddress
  codeHash : String
  deriving DecidableEq

/-- JSON syntax tree: the value whose rendering `json.MarshalIndent`
returns.  `Json.null` is the serialization of a `nil` slice or `nil`
pointer, `Json.arr []` the serialization of an empty non-nil slice. -/
inductive Json where
  | null
  | str (s : String)
  | num (n : Int)
  | arr (elems : List Json)
  | obj (fields : List (String × Json))

/-- The sdk error kinds produced in querier.go, with the message text the
source attaches.  `unknownRequest` is `sdkErrors.ErrUnknownRequest` /
`sdk.ErrUnknownRequest` (the spec's `UnknownQueryKind`), `invalidAddress`
is `sdkErrors.ErrInvalidAddress` (the spec's `InvalidAddress`),
`jsonMarshal` is `sdkErrors.ErrJSONMarshal`, and `keeperError` is a
wrapped error surfaced by the keeper. -/
inductive SdkError where
  | unknownRequest (msg : String)
  | invalidAddress (msg : String)
  | jsonMarshal (msg : String)
  | keeperError (msg : String)
  deriving DecidableEq

/-- A handler's successful reply: either bytes rendered from a JSON tree
(`json.MarshalIndent`) or an opaque byte passthrough (smart queries). -/
inductive QueryResp where
  | json (v : Json)
  | raw (bz : Bytes)

/-- The keeper capability interface of §6, as consumed by querier.go.
The `all`-submode iterator is modelled by the list of its (key, value)
steps in iterator order. -/
structure Keeper where
  getContractInfo : AccAddress → Option ContractInfo
  listContractInfo : List (AccAddress × ContractInfo)
  getContractState : AccAddress → List (String × String)
  queryRaw : AccAddress → Bytes → Option (List Model)
  querySmart : AccAddress → Bytes → Except SdkError Bytes
  getByteCode : Nat → Except String Bytes
  getCodeInfo : Nat → Option CodeInfo

/-- The sdk address codec: `AccAddressFromBech32` (with its error
message on failure) and the bech32 rendering used by `addr.String()`
and JSON marshalling of addresses. -/
structure SdkEnv where
  accAddressFromBech32 : String → Except String AccAddress
  bech32Of : AccAddress → String

/-- Go `append` on a possibly-nil slice: always yields a non-nil slice. -/
def goAppend (s : Option (List α)) (x : α) : Option (List α) :=
  some (s.getD [] ++ [x])

/-- Query path kind constants from querier.go. -/
def QueryListContracts : String := "list-contracts"

def QueryGetContract : String := "contract-info"

def QueryGetContractState : String := "contract-state"

def QueryGetCode : String := "code"

def QueryListCode : String := "list-code"

/-- Contract-state submode constants from querier.go. -/
def QueryMethodContractStateSmart : String := "smart"

def QueryMethodContractStateAll : String := "all"

def QueryMethodContractStateRaw : String := "raw"

def fieldKey : String := "key"

def fieldValue : String := "value"

def fieldCodeID : String := "code_id"

def fieldCreator : String := "creator"

def fieldInitMsg : String := "init_msg"

def fieldID : String := "id"

def fieldCodeHash : String := "code_hash"

def fieldCode : String := "code"

/-- JSON of one `types.Model`. -/
def jsonOfModel (m : Model) : Json :=
  Json.obj [(fieldKey, Json.str m.key), (fieldValue, Json.str m.value)]

/-- `json.MarshalIndent` of a `[]types.Model` Go slice: `null` for the
nil slice, an array otherwise. -/
def marshalModelSlice : Option (List Model) → Json
  | none => Json.null
  | some l => Json.arr (l.map jsonOfModel)

/-- `json.MarshalIndent` of a `[]string` Go slice. -/
def marshalStringSlice : Option (List String) → Json
  | none => Json.null
  | some l => Json.arr (l.map Json.str)

/-- `json.MarshalIndent` of the `*types.ContractInfo` returned by
`keeper.GetContractInfo`: a nil pointer (absent contract) serializes to
`null`; otherwise the contract info object. -/
def marshalContractInfoPtr (env : SdkEnv) : Option ContractInfo → Json
  | none => Json.null
  | some info =>
      Json.obj
        [(fieldCodeID, Json.num (Int.ofNat info.codeID)),
         (fieldCreator, Json.str (env.bech32Of info.creator)),
         (fieldInitMsg, Json.str info.initMsg)]

/-- JSON of one `ListCodeResponse` entry (fields `id`, `creator`,
`code_hash`). -/
def jsonOfListCode (env : SdkEnv) (e : ListCodeResponse) : Json :=
  Json.obj
    [(fieldID, Json.num (Int.ofNat e.id)),
     (fieldCreator, Json.str (env.bech32Of e.creator)),
     (fieldCodeHash, Json.str e.codeHash)]

/-- `json.MarshalIndent` of a `[]ListCodeResponse` Go slice. -/
def marshalListCodeSlice (env : SdkEnv) : Option (List ListCodeResponse) → Json
  | none => Json.null
  | some l => Json.arr (l.map (jsonOfListCode env))

def decodeBech32FailedMsg : String := "decoding bech32 failed"

def invalidCodeIDMsg : String := "invalid codeID"

def loadingWasmCodeMsg : String := "loading wasm code"

def unknownEndpointMsg : String := "unknown data query endpoint"

/-- `queryContractInfo` from querier.go.  On bech32 decode failure the
source returns `sdk.ErrUnknownRequest(err.Error())` — note, not
`ErrInvalidAddress`; `ErrInvalidAddress` is instead used on the
JSON-marshal failure branch, which is unreachable because
`json.MarshalIndent` cannot fail on `*types.ContractInfo` (marshal is
total in the model).  The looked-up info is marshalled as-is, absent or
not. -/
def queryContractInfo (env : SdkEnv) (k : Keeper) (bech : String) :
    Except SdkError Json :=
  match env.accAddressFromBech32 bech with
  | Except.error e => Except.error (SdkError.unknownRequest e)
  | Except.ok addr => Except.ok (marshalContractInfoPtr env (k.getContractInfo addr))

/-- `queryContractList` from querier.go: iterates the keeper's contract
listing to completion (the callback always returns `false`), appending
each address's bech32 string to an initially nil Go slice. -/
def queryContractList (env : SdkEnv) (k : Keeper) : Except SdkError QueryResp :=
  let addrs := k.listContractInfo.foldl (fun acc p => goAppend acc (env.bech32Of p.1)) none
  Except.ok (QueryResp.json (marshalStringSlice addrs))

/-- `queryContractState` from querier.go.  Decode failure yields
`Wrap(ErrInvalidAddress, bech)`.  The `all` submode folds the keeper's
storage iterator into an initially nil `[]types.Model` slice and replaces
a still-nil result with `make([]types.Model, 0)`; the `raw` submode
returns `keeper.QueryRaw` as-is; the `smart` submode returns
`keeper.QuerySmart` bytes directly, bypassing JSON marshalling; any other
submode yields `Wrap(ErrUnknownRequest, queryMethod)`. -/
def queryContractState (env : SdkEnv) (k : Keeper) (bech queryMethod : String)
    (reqData : Bytes) : Except SdkError QueryResp :=
  match env.accAddressFromBech32 bech with
  | Except.error _ => Except.error (SdkError.invalidAddress bech)
  | Except.ok contractAddr =>
    if queryMethod = QueryMethodContractStateAll then
      let resultData : Option (List Model) :=
        (k.getContractState contractAddr).foldl
          (fun acc kv => goAppend acc { key := kv.1, value := kv.2 }) none
      let fixedData : Option (List Model) :=
        match resultData with
        | none => some []
        | some l => some l
      Except.ok (QueryResp.json (marshalModelSlice fixedData))
    else if queryMethod = QueryMethodContractStateRaw then
      Except.ok (QueryResp.json (marshalModelSlice (k.queryRaw contractAddr reqData)))
    else if queryMethod = QueryMethodContractStateSmart then
      match k.querySmart contractAddr reqData with
      | Except.ok bz => Except.ok (QueryResp.raw bz)
      | Except.error e => Except.error e
    else
      Except.error (SdkError.unknownRequest queryMethod)

/-- `strconv.ParseUint(s, 10, 64)`: decimal parse bounded by 64 bits. -/
def goParseUint64 (s : String) : Option Nat :=
  match s.toNat? with
  | none => none
  | some n => if n < 2 ^ 64 then some n else none

/-- `queryCode` from querier.go: parse the decimal code ID
(`ErrUnknownRequest` on parse failure), fetch the bytecode (wrapping a
keeper failure), and wrap the bytes in the single-field
`GetCodeResponse`. -/
def queryCode (k : Keeper) (codeIDstr : String) : Except SdkError QueryResp :=
  match goParseUint64 codeIDstr with
  | none => Except.error (SdkError.unknownRequest invalidCodeIDMsg)
  | some codeID =>
    match k.getByteCode codeID with
    | Except.error _ => Except.error (SdkError.keeperError loadingWasmCodeMsg)
    | Except.ok code => Except.ok (QueryResp.json (Json.obj [(fieldCode, Json.str code)]))

/-- The `for true` scan of `queryCodeList`: starting with `i = 0` the
loop first increments `i`, fetches `GetCodeInfo(i)`, stops at the first
absent ID and otherwise appends `(i, creator, code_hash)` to the
accumulated Go slice.  The source loop is unbounded; it is modelled by
explicit unrolling fuel — with more fuel than codes the unrolling is the
loop. -/
def codeListLoop (g : Nat → Option CodeInfo) :
    Nat → Nat → Option (List ListCodeResponse) → Option (List ListCodeResponse)
  | 0, _, info => info
  | fuel + 1, i, info =>
    match g (i + 1) with
    | none => info
    | some res =>
        codeListLoop g fuel (i + 1)
          (goAppend info { id := i + 1, creator := res.creator, codeHash := res.codeHash })

/-- `queryCodeList` from querier.go: run the sequential scan from ID 1
and marshal the accumulated (possibly still nil) slice. -/
def queryCodeList (env : SdkEnv) (k : Keeper) (fuel : Nat) : Except SdkError QueryResp :=
  Except.ok (QueryResp.json (marshalListCodeSlice env (codeListLoop k.getCodeInfo fuel 0 none)))

/-- Outcome of the dispatcher: a reply, a returned error, or a Go
runtime fault (the `path[i]` index-out-of-range panic), which the
dispatcher itself neither catches nor converts. -/
inductive DispatchResult where
  | ok (resp : QueryResp)
  | err (e : SdkError)
  | fault (msg : String)

def indexOOR : String := "runtime error: index out of range"

def liftResp : Except SdkError QueryResp → DispatchResult
  | Except.ok r => DispatchResult.ok r
  | Except.error e => DispatchResult.err e

def liftJsonResp : Except SdkError Json → DispatchResult
  | Except.ok v => DispatchResult.ok (QueryResp.json v)
  | Except.error e => DispatchResult.err e

/-- Whether a dispatch outcome is an `ErrUnknownRequest` error (the
spec's `UnknownQueryKind`). -/
def isUnknownRequestErr : DispatchResult → Bool
  | DispatchResult.err (SdkError.unknownRequest _) => true
  | _ => false

/-- `newQuerier` from querier.go.  It switches on `path[0]` and hands
`path[1]` (and `path[2]`) to the selected handler.  Only the
`contract-state` arm guards the path length (`len(path) < 3`); the
`contract-info` and `code` arms read `path[1]` unconditionally, and the
switch reads `path[0]` unconditionally, so a too-short path there is an
index-out-of-range fault, modelled by `DispatchResult.fault`. -/
def newQuerier (env : SdkEnv) (k : Keeper) (fuel : Nat) (path : List String)
    (reqData : Bytes) : DispatchResult :=
  match path.get? 0 with
  | none => DispatchResult.fault indexOOR
  | some p0 =>
    if p0 = QueryGetContract then
      match path.get? 1 with
      | none => DispatchResult.fault indexOOR
      | some p1 => liftJsonResp (queryContractInfo env k p1)
    else if p0 = QueryListContracts then
      liftResp (queryContractList env k)
    else if p0 = QueryGetContractState then
      if path.length < 3 then
        DispatchResult.err (SdkError.unknownRequest unknownEndpointMsg)
      else
        match path.get? 1, path.get? 2 with
        | some p1, some p2 => liftResp (queryContractState env k p1 p2 reqData)
        | _, _ => DispatchResult.fault indexOOR
    else if p0 = QueryGetCode then
      match path.get? 1 with
      | none => DispatchResult.fault indexOOR
      | some p1 => liftResp (queryCode k p1)
    else if p0 = QueryListCode then
      liftResp (queryCodeList env k fuel)
    else
      DispatchResult.err (SdkError.unknownRequest unknownEndpointMsg)

/-- The five recognized first path segments. -/
def knownQueryKinds : List String :=
  [QueryGetContract, QueryListContracts, QueryGetContractState, QueryGetCode, QueryListCode]

/-- `MaxWasmSize = 500 * 1024` from the message-type file. -/
def MaxWasmSize : Nat := 500 * 1024

/-- `BuildTagRegex` from the message-type file.  The pattern is a fixed
anchor followed by a literal, so `regexp.MatchString BuildTagRegex b`
holds exactly when `b` starts with that literal and never returns a
compile error. -/
def BuildTagRegex : String := "^cosmwasm-opt:"

def buildTagLiteral : String := "cosmwasm-opt:"

/-- `regexp.MatchString("^cosmwasm-opt:", b)` as a Boolean. -/
def buildTagMatch (b : String) : Bool :=
  b.startsWith buildTagLiteral

/-- The part of a `net/url.URL` consulted by the validator: `IsAbs()`
is `Scheme != ""`. -/
structure GoURL where
  scheme : String
  deriving DecidableEq

def GoURL.isAbs (u : GoURL) : Bool := u.scheme ≠ emptyStr

/-- The network-facing standard-library calls made by
`MsgStoreCode.ValidateBasic`: `url.Parse` (with `none` for a parse
error) and `http.Get` (with `none` for a transport error and otherwise
the response status code). -/
structure NetEnv where
  urlParse : String → Option GoURL
  httpGet : String → Option Nat

/-- One `sdk.Coin`: denomination and (signed, possibly negative)
amount. -/
structure Coin where
  denom : String
  amount : Int
  deriving DecidableEq

/-- `sdk.Coins.IsAnyNegative`: whether any coin's amount is negative. -/
def coinsIsAnyNegative (coins : List Coin) : Bool :=
  coins.any (fun c => c.amount < 0)

/-- `MsgStoreCode` (sender, raw bytecode, optional source URI, optional
builder tag). -/
structure MsgStoreCode where
  sender : AccAddress
  wasmByteCode : List Nat
  source : String
  builder : String

/-- `MsgInstantiateContract`. -/
structure MsgInstantiateContract where
  sender : AccAddress
  code : Nat
  initMsg : String
  initFunds : List Coin

/-- `MsgExecuteContract`. -/
structure MsgExecuteContract where
  sender : AccAddress
  contract : AccAddress
  msg : String
  sentFunds : List Coin

/-- The validation failures of the three `ValidateBasic` routines, one
constructor per distinct `sdk.Error` the source constructs;
`MsgErr.goMessage` records the exact message text.  The store-code ones
are built with `sdk.ErrInternal`, the funds ones with
`sdk.ErrInvalidCoins`. -/
inductive MsgErr where
  | emptyCode
  | codeTooLarge
  | badSourceURL
  | sourceNotAbsolute
  | sourceUnreachable
  | invalidBuilderTag
  | negativeInitFunds
  | negativeSentFunds
  deriving DecidableEq

def MsgErr.goMessage : MsgErr → String
  | MsgErr.emptyCode => "empty wasm code"
  | MsgErr.codeTooLarge => "wasm code too large"
  | MsgErr.badSourceURL => "source should be a valid url"
  | MsgErr.sourceNotAbsolute => "source should be an absolute url"
  | MsgErr.sourceUnreachable => "source url is not reachable"
  | MsgErr.invalidBuilderTag => "invalid tag supplied for builder"
  | MsgErr.negativeInitFunds => "negative InitFunds"
  | MsgErr.negativeSentFunds => "negative SentFunds"

/-- The spec's `InvalidSourceURI` failure class: it covers both source
messages "source should be a valid url" (parse failure) and "source
should be an absolute url" (relative URI). -/
def isInvalidSourceURI : Option MsgErr → Bool
  | some MsgErr.badSourceURL => true
  | some MsgErr.sourceNotAbsolute => true
  | _ => false

/-- The `if msg.Source != ""` block of `MsgStoreCode.ValidateBasic`:
parse the URI (failure: invalid url), require it absolute (failure:
not absolute), then probe it with `http.Get`, failing unless the fetch
succeeds with status 200.  Returns `none` when the block falls through
(or is skipped because the source is empty). -/
def storeCodeSourceCheck (env : NetEnv) (msg : MsgStoreCode) : Option MsgErr :=
  if msg.source ≠ emptyStr then
    match env.urlParse msg.source with
    | none => some MsgErr.badSourceURL
    | some u =>
      if u.isAbs then
        match env.httpGet msg.source with
        | none => some MsgErr.sourceUnreachable
        | some status =>
          if status ≠ 200 then some MsgErr.sourceUnreachable else none
      else some MsgErr.sourceNotAbsolute
  else none

/-- The `if msg.Builder != ""` block of `MsgStoreCode.ValidateBasic`:
the builder tag, when present, must match `^cosmwasm-opt:` (the
constant pattern compiles, so `MatchString` cannot error). -/
def storeCodeBuilderCheck (msg : MsgStoreCode) : Option MsgErr :=
  if msg.builder ≠ emptyStr then
    if buildTagMatch msg.builder then none else some MsgErr.invalidBuilderTag
  else none

/-- `MsgStoreCode.ValidateBasic`: empty bytecode, oversize bytecode,
then the source-URI block, then the builder block, in source order;
`none` is the `nil` (valid) result. -/
def msgStoreCodeValidateBasic (env : NetEnv) (msg : MsgStoreCode) : Option MsgErr :=
  if msg.wasmByteCode.length = 0 then some MsgErr.emptyCode
  else if MaxWasmSize < msg.wasmByteCode.length then some MsgErr.codeTooLarge
  else
    match storeCodeSourceCheck env msg with
    | some e => some e
    | none => storeCodeBuilderCheck msg

/-- `MsgInstantiateContract.ValidateBasic`: rejects any negative
`InitFunds` amount. -/
def msgInstantiateContractValidateBasic (msg : MsgInstantiateContract) : Option MsgErr :=
  if coinsIsAnyNegative msg.initFunds then some MsgErr.negativeInitFunds else none

/-- `MsgExecuteContract.ValidateBasic`: rejects any negative
`SentFunds` amount. -/
def msgExecuteContractValidateBasic (msg : MsgExecuteContract) : Option MsgErr :=
  if coinsIsAnyNegative msg.sentFunds then some MsgErr.negativeSentFunds else none

/-- Modelled from the spec: the keeper's `QueryRaw` implementation is
not under src/ (only its caller in querier.go is).  Per §4.4 and §6,
over the contract's storage partition it looks "up the single key given
in the payload" and returns "a sequence containing zero or one Model":
an empty (non-nil) sequence when the key is absent, the single matching
key/value pair otherwise.  The storage partition is given as a map from
address and key to the stored value. -/
def specQueryRaw (storage : AccAddress → Bytes → Option Bytes)
    (addr : AccAddress) (key : Bytes) : Option (List Model) :=
  match storage addr key with
  | none => some []
  | some v => some [{ key := key, value := v }]

/-- A bech32 string accepted by the fixture decoder below. -/
def goodBech : String := "cosmos1contract"

/-- A string whose bech32 decode fails in the fixture decoder below. -/
def badBech : String := "not-a-bech32-address"

def addrX : AccAddress := [7]

/-- Fixture address codec: exactly `goodBech` decodes (to `addrX`). -/
def decFixed : String → Except String AccAddress := fun s =>
  if s = goodBech then Except.ok addrX else Except.error decodeBech32FailedMsg

def envX : SdkEnv :=
  { accAddressFromBech32 := decFixed, bech32Of := fun _ => goodBech }

def emptyBytes : Bytes := ""

/-- Fixture keeper: no contracts, no codes, empty storage, echoing
smart queries. -/
def keeperX : Keeper :=
  { getContractInfo := fun _ => none
    listContractInfo := []
    getContractState := fun _ => []
    queryRaw := fun _ _ => some []
    querySmart := fun _ d => Except.ok d
    getByteCode := fun _ => Except.error loadingWasmCodeMsg
    getCodeInfo := fun _ => none }

/-- C1: the claim says both address-accepting handlers fail with
`InvalidAddress` on a syntactically invalid address.  Evaluating the
embedding at a failing input: `queryContractState` does fail with
`ErrInvalidAddress` in all three submodes, but `queryContractInfo`
fails with `ErrUnknownRequest` instead (the source transposed the two
error constructors: `ErrInvalidAddress` sits on its unreachable
JSON-marshal branch).  Neither handler can fault: both are total
functions into `Except`. -/
theorem c1_decode_failure_error_kinds :
    queryContractInfo envX keeperX badBech =
      Except.error (SdkError.unknownRequest decodeBech32FailedMsg) ∧
    queryContractState envX keeperX badBech QueryMethodContractStateAll emptyBytes =
      Except.error (SdkError.invalidAddress badBech) ∧
    queryContractState envX keeperX badBech QueryMethodContractStateRaw emptyBytes =
      Except.error (SdkError.invalidAddress badBech) ∧
    queryContractState envX keeperX badBech QueryMethodContractStateSmart emptyBytes =
      Except.error (SdkError.invalidAddress badBech) :=
  ⟨rfl, rfl, rfl, rfl⟩

/-- C2 counterexample: a `contract-info` query with only one segment
does not return an `UnknownQueryKind` error as the claim states — the
dispatcher reads `path[1]` unconditionally and faults (index out of
range). -/
theorem c2_counterexample_short_contract_info_path :
    newQuerier envX keeperX 1 [QueryGetContract] emptyBytes = DispatchResult.fault indexOOR ∧
    isUnknownRequestErr (newQuerier envX keeperX 1 [QueryGetContract] emptyBytes) = false :=
  ⟨rfl, rfl⟩

/-- C2 (amended): an unrecognized first segment yields the
`ErrUnknownRequest` ("unknown data query endpoint") error, and so does
a `contract-state` query with fewer than three segments; but a
`contract-info` or `code` query with only one segment — and an empty
path — are an out-of-range index fault, not an error. -/
theorem c2_dispatcher_shape_errors (env : SdkEnv) (k : Keeper) (fuel : Nat) (d : Bytes) :
    (∀ p0 rest, p0 ∉ knownQueryKinds →
      newQuerier env k fuel (p0 :: rest) d =
        DispatchResult.err (SdkError.unknownRequest unknownEndpointMsg)) ∧
    newQuerier env k fuel [QueryGetContractState] d =
      DispatchResult.err (SdkError.unknownRequest unknownEndpointMsg) ∧
    (∀ s, newQuerier env k fuel [QueryGetContractState, s] d =
      DispatchResult.err (SdkError.unknownRequest unknownEndpointMsg)) ∧
    newQuerier env k fuel [QueryGetContract] d = DispatchResult.fault indexOOR ∧
    newQuerier env k fuel [QueryGetCode] d = DispatchResult.fault indexOOR ∧
    newQuerier env k fuel ([] : List String) d = DispatchResult.fault indexOOR := by
  refine ⟨?_, rfl, fun s => rfl, rfl, rfl, rfl⟩
  intro p0 rest hmem
  have h1 : ¬ p0 = QueryGetContract := fun h => hmem (by rw [h]; decide)
  have h2 : ¬ p0 = QueryListContracts := fun h => hmem (by rw [h]; decide)
  have h3 : ¬ p0 = QueryGetContractState := fun h => hmem (by rw [h]; decide)
  have h4 : ¬ p0 = QueryGetCode := fun h => hmem (by rw [h]; decide)
  have h5 : ¬ p0 = QueryListCode := fun h => hmem (by rw [h]; decide)
  simp [newQuerier, h1, h2, h3, h4, h5]

def bogusKind : String := "bogus-kind"

/-- C2 witness: the amended theorem applied at the unrecognized kind
`"bogus-kind"`. -/
theorem c2_dispatcher_shape_errors_witness :
    newQuerier envX keeperX 1 [bogusKind] emptyBytes =
      DispatchResult.err (SdkError.unknownRequest unknownEndpointMsg) :=
  (c2_dispatcher_shape_errors envX keeperX 1 emptyBytes).1 bogusKind [] (by decide)

theorem storeCodeSourceCheck_cases (env : NetEnv) (msg : MsgStoreCode) :
    storeCodeSourceCheck env msg = none ∨
    storeCodeSourceCheck env msg = some MsgErr.badSourceURL ∨
    storeCodeSourceCheck env msg = some MsgErr.sourceNotAbsolute ∨
    storeCodeSourceCheck env msg = some MsgErr.sourceUnreachable := by
  unfold storeCodeSourceCheck
  by_cases hs : msg.source ≠ emptyStr
  · rw [if_pos hs]
    cases h : env.urlParse msg.source with
    | none => simp
    | some u =>
      dsimp only
      by_cases ha : u.isAbs = true
      · rw [if_pos ha]
        cases hg : env.httpGet msg.source with
        | none => simp
        | some st =>
          dsimp only
          by_cases h200 : st ≠ 200
          · rw [if_pos h200]; simp
          · rw [if_neg h200]; simp
      · rw [if_neg ha]; simp
  · rw [if_neg hs]; simp

theorem storeCodeBuilderCheck_cases (msg : MsgStoreCode) :
    storeCodeBuilderCheck msg = none ∨
    storeCodeBuilderCheck msg = some MsgErr.invalidBuilderTag := by
  unfold storeCodeBuilderCheck
  by_cases hb : msg.builder ≠ emptyStr
  · rw [if_pos hb]
    by_cases hm : buildTagMatch msg.builder = true
    · rw [if_pos hm]; simp
    · rw [if_neg hm]; simp
  · rw [if_neg hb]; simp

theorem msgStoreCodeValidateBasic_tail (env : NetEnv) (msg : MsgStoreCode)
    (h0 : ¬ msg.wasmByteCode.length = 0)
    (hmax : ¬ MaxWasmSize < msg.wasmByteCode.length) :
    msgStoreCodeValidateBasic env msg = none ∨
    msgStoreCodeValidateBasic env msg = some MsgErr.badSourceURL ∨
    msgStoreCodeValidateBasic env msg = some MsgErr.sourceNotAbsolute ∨
    msgStoreCodeValidateBasic env msg = some MsgErr.sourceUnreachable ∨
    msgStoreCodeValidateBasic env msg = some MsgErr.invalidBuilderTag := by
  unfold msgStoreCodeValidateBasic
  rw [if_neg h0, if_neg hmax]
  rcases storeCodeSourceCheck_cases env msg with hc | hc | hc | hc <;> rw [hc]
  · rcases storeCodeBuilderCheck_cases msg with hb | hb <;> simp [hb]
  · simp
  · simp
  · simp

/-- C4: `MsgStoreCode.ValidateBasic` fails with `EmptyCode` exactly when
the bytecode length is 0; for lengths 1..512000 it passes both size
checks (whatever the source and builder are); for lengths above 512000
it fails with `CodeTooLarge`; and with no source and no builder a
size-respecting message is accepted outright. -/
theorem c4_store_code_size_checks (env : NetEnv) (msg : MsgStoreCode) :
    (msgStoreCodeValidateBasic env msg = some MsgErr.emptyCode ↔
      msg.wasmByteCode.length = 0) ∧
    (1 ≤ msg.wasmByteCode.length → msg.wasmByteCode.length ≤ MaxWasmSize →
      msgStoreCodeValidateBasic env msg ≠ some MsgErr.emptyCode ∧
      msgStoreCodeValidateBasic env msg ≠ some MsgErr.codeTooLarge) ∧
    (MaxWasmSize < msg.wasmByteCode.length →
      msgStoreCodeValidateBasic env msg = some MsgErr.codeTooLarge) ∧
    (msg.source = emptyStr → msg.builder = emptyStr →
      1 ≤ msg.wasmByteCode.length → msg.wasmByteCode.length ≤ MaxWasmSize →
      msgStoreCodeValidateBasic env msg = none) := by
  refine ⟨⟨?_, ?_⟩, ?_, ?_, ?_⟩
  · intro h
    by_contra h0
    by_cases hm : MaxWasmSize < msg.wasmByteCode.length
    · unfold msgStoreCodeValidateBasic at h
      rw [if_neg h0, if_pos hm] at h
      exact absurd h (by simp)
    · rcases msgStoreCodeValidateBasic_tail env msg h0 hm with ht | ht | ht | ht | ht <;>
        rw [h] at ht <;> simp at ht
  · intro h0
    unfold msgStoreCodeValidateBasic
    rw [if_pos h0]
  · intro h1 h2
    have h0 : ¬ msg.wasmByteCode.length = 0 := by omega
    have hm : ¬ MaxWasmSize < msg.wasmByteCode.length := by omega
    constructor
    · rcases msgStoreCodeValidateBasic_tail env msg h0 hm with ht | ht | ht | ht | ht <;>
        rw [ht] <;> simp
    · rcases msgStoreCodeValidateBasic_tail env msg h0 hm with ht | ht | ht | ht | ht <;>
        rw [ht] <;> simp
  · intro hm
    have h0 : ¬ msg.wasmByteCode.length = 0 := by omega
    unfold msgStoreCodeValidateBasic
    rw [if_neg h0, if_pos hm]
  · intro hsrc hbld h1 h2
    have h0 : ¬ msg.wasmByteCode.length = 0 := by omega
    have hm : ¬ MaxWasmSize < msg.wasmByteCode.length := by omega
    unfold msgStoreCodeValidateBasic
    rw [if_neg h0, if_neg hm]
    have hc : storeCodeSourceCheck env msg = none := by
      unfold storeCodeSourceCheck
      rw [if_neg (by simp [hsrc])]
    rw [hc]
    show storeCodeBuilderCheck msg = none
    unfold storeCodeBuilderCheck
    rw [if_neg (by simp [hbld])]

def senderX : AccAddress := [1]

def msgSizedX : MsgStoreCode :=
  { sender := senderX, wasmByteCode := [0], source := emptyStr, builder := emptyStr }

def netEnvNone : NetEnv := { urlParse := fun _ => none, httpGet := fun _ => none }

/-- C4 witness: a one-byte bytecode with no source and no builder is
accepted. -/
theorem c4_store_code_size_checks_witness :
    msgStoreCodeValidateBasic netEnvNone msgSizedX = none :=
  (c4_store_code_size_checks netEnvNone msgSizedX).2.2.2 rfl rfl (by decide) (by decide)

/-- C5: with the size checks passed, a non-empty source that fails to
parse — or parses without a scheme, hence is not absolute — makes
`ValidateBasic` fail in the spec's `InvalidSourceURI` class, and the
outcome is independent of the `http.Get` oracle (the probe is never
consulted); with an empty source, the outcome is independent of both
the URL parser and the `http.Get` oracle (neither check runs). -/
theorem c5_store_code_source_uri (p p2 : String → Option GoURL) (f f2 : String → Option Nat)
    (msg : MsgStoreCode)
    (h1 : 1 ≤ msg.wasmByteCode.length) (h2 : msg.wasmByteCode.length ≤ MaxWasmSize) :
    (msg.source ≠ emptyStr →
      (p msg.source = none ∨ ∀ u, p msg.source = some u → u.scheme = emptyStr) →
      isInvalidSourceURI
        (msgStoreCodeValidateBasic { urlParse := p, httpGet := f } msg) = true ∧
      msgStoreCodeValidateBasic { urlParse := p, httpGet := f } msg =
        msgStoreCodeValidateBasic { urlParse := p, httpGet := f2 } msg) ∧
    (msg.source = emptyStr →
      msgStoreCodeValidateBasic { urlParse := p, httpGet := f } msg =
        msgStoreCodeValidateBasic { urlParse := p2, httpGet := f2 } msg) := by
  have h0 : ¬ msg.wasmByteCode.length = 0 := by omega
  have hm : ¬ MaxWasmSize < msg.wasmByteCode.length := by omega
  constructor
  · intro hsrc hbad
    have hfix : ∀ g : String → Option Nat,
        storeCodeSourceCheck { urlParse := p, httpGet := g } msg =
          (match p msg.source with
           | none => some MsgErr.badSourceURL
           | some _ => some MsgErr.sourceNotAbsolute) := by
      intro g
      unfold storeCodeSourceCheck
      rw [if_pos hsrc]
      dsimp only
      cases hp : p msg.source with
      | none => rfl
      | some u =>
        have hu : u.scheme = emptyStr := by
          rcases hbad with hb | hb
          · rw [hp] at hb
            exact absurd hb (by simp)
          · exact hb u hp
        have habs : ¬ (u.isAbs = true) := by simp [GoURL.isAbs, hu]
        dsimp only
        rw [if_neg habs]
    have hval : ∀ g : String → Option Nat,
        msgStoreCodeValidateBasic { urlParse := p, httpGet := g } msg =
          (match p msg.source with
           | none => some MsgErr.badSourceURL
           | some _ => some MsgErr.sourceNotAbsolute) := by
      intro g
      unfold msgStoreCodeValidateBasic
      rw [if_neg h0, if_neg hm, hfix g]
      cases p msg.source <;> rfl
    refine ⟨?_, by rw [hval f, hval f2]⟩
    rw [hval f]
    cases p msg.source <;> rfl
  · intro hsrc
    have hval : ∀ (q : String → Option GoURL) (g : String → Option Nat),
        msgStoreCodeValidateBasic { urlParse := q, httpGet := g } msg =
          storeCodeBuilderCheck msg := by
      intro q g
      have hnone : storeCodeSourceCheck { urlParse := q, httpGet := g } msg = none := by
        unfold storeCodeSourceCheck
        rw [if_neg (by simp [hsrc])]
      unfold msgStoreCodeValidateBasic
      rw [if_neg h0, if_neg hm, hnone]
    rw [hval p f, hval p2 f2]

def relSource : String := "foo/bar"

def msgRelSource : MsgStoreCode :=
  { sender := senderX, wasmByteCode := [0], source := relSource, builder := emptyStr }

def urlRel : GoURL := { scheme := emptyStr }

def parseRel : String → Option GoURL := fun _ => some urlRel

def fetchFail : String → Option Nat := fun _ => none

def fetchOk : String → Option Nat := fun _ => some 200

/-- C5 witness: the relative source `"foo/bar"` (parsed with an empty
scheme) is rejected in the `InvalidSourceURI` class, identically under
a failing and a succeeding fetch oracle. -/
theorem c5_store_code_source_uri_witness :
    isInvalidSourceURI
      (msgStoreCodeValidateBasic { urlParse := parseRel, httpGet := fetchFail } msgRelSource) =
        true ∧
    msgStoreCodeValidateBasic { urlParse := parseRel, httpGet := fetchFail } msgRelSource =
      msgStoreCodeValidateBasic { urlParse := parseRel, httpGet := fetchOk } msgRelSource :=
  (c5_store_code_source_uri parseRel parseRel fetchFail fetchOk msgRelSource
      (by decide) (by decide)).1
    (by decide)
    (Or.inr (fun u hu => by
      have h : urlRel = u := by injection hu
      rw [← h]
      rfl))

/-- C6: `MsgInstantiateContract.ValidateBasic` fails with the
negative-`InitFunds` error exactly when some attached amount is
negative, and succeeds exactly otherwise (so empty and all-zero funds
are accepted); likewise `MsgExecuteContract.ValidateBasic` for
`SentFunds`. -/
theorem c6_funds_negative_iff (mi : MsgInstantiateContract) (me : MsgExecuteContract) :
    (msgInstantiateContractValidateBasic mi = some MsgErr.negativeInitFunds ↔
      ∃ c ∈ mi.initFunds, c.amount < 0) ∧
    (msgInstantiateContractValidateBasic mi = none ↔
      ¬ ∃ c ∈ mi.initFunds, c.amount < 0) ∧
    (msgExecuteContractValidateBasic me = some MsgErr.negativeSentFunds ↔
      ∃ c ∈ me.sentFunds, c.amount < 0) ∧
    (msgExecuteContractValidateBasic me = none ↔
      ¬ ∃ c ∈ me.sentFunds, c.amount < 0) := by
  have hany : ∀ cs : List Coin, coinsIsAnyNegative cs = true ↔ ∃ c ∈ cs, c.amount < 0 := by
    intro cs
    unfold coinsIsAnyNegative
    rw [List.any_eq_true]
    simp
  by_cases hi : coinsIsAnyNegative mi.initFunds = true <;>
    by_cases he : coinsIsAnyNegative me.sentFunds = true <;>
      simp [msgInstantiateContractValidateBasic, msgExecuteContractValidateBasic,
        ← hany, hi, he]

theorem foldl_goAppend_some (f : α → β) (l : List α) (acc : List β) :
    l.foldl (fun a x => goAppend a (f x)) (some acc) = some (acc ++ l.map f) := by
  induction l generalizing acc with
  | nil => simp
  | cons x xs ih =>
    simp only [List.foldl_cons, List.map_cons]
    rw [show goAppend (some acc) (f x) = some (acc ++ [f x]) from rfl, ih]
    simp

theorem foldl_goAppend_none (f : α → β) (l : List α) :
    l.foldl (fun a x => goAppend a (f x)) none =
      match l with
      | [] => none
      | _ => some (l.map f) := by
  cases l with
  | nil => rfl
  | cons x xs =>
    simp only [List.foldl_cons, List.map_cons]
    rw [show goAppend none (f x) = some ([] ++ [f x]) from rfl, foldl_goAppend_some]
    simp

/-- C8: the `all` submode, on a validly decoding address, replies with
the JSON array holding one `{key, value}` object per iterator step, in
iterator order — in particular the explicitly empty array `[]` (never
`null`) when the contract has no storage entries. -/
theorem c8_contract_state_all (env : SdkEnv) (k : Keeper) (bech : String) (addr : AccAddress)
    (d : Bytes) (h : env.accAddressFromBech32 bech = Except.ok addr) :
    queryContractState env k bech QueryMethodContractStateAll d =
      Except.ok (QueryResp.json (Json.arr ((k.getContractState addr).map
        (fun kv => jsonOfModel { key := kv.1, value := kv.2 })))) ∧
    queryContractState env k bech QueryMethodContractStateAll d ≠
      Except.ok (QueryResp.json Json.null) := by
  have hmain : queryContractState env k bech QueryMethodContractStateAll d =
      Except.ok (QueryResp.json (Json.arr ((k.getContractState addr).map
        (fun kv => jsonOfModel { key := kv.1, value := kv.2 })))) := by
    unfold queryContractState
    rw [h]
    dsimp only
    rw [if_pos rfl]
    cases hl : k.getContractState addr with
    | nil => rfl
    | cons x xs =>
      rw [foldl_goAppend_none (fun kv => ({ key := kv.1, value := kv.2 } : Model)) (x :: xs)]
      simp [marshalModelSlice, List.map_map, Function.comp]
  refine ⟨hmain, ?_⟩
  rw [hmain]
  intro hc
  simp at hc

/-- C8 witness: on the fixture keeper, whose storage partition is
empty, the `all` reply is the explicitly empty array. -/
theorem c8_contract_state_all_witness :
    queryContractState envX keeperX goodBech QueryMethodContractStateAll emptyBytes =
      Except.ok (QueryResp.json (Json.arr [])) :=
  (c8_contract_state_all envX keeperX goodBech addrX emptyBytes rfl).1

/-- C9: the `smart` submode, on a validly decoding address, returns the
keeper's `QuerySmart` bytes as the raw passthrough reply — byte-for-byte
what the virtual machine produced, with no JSON wrapping. -/
theorem c9_contract_state_smart_passthrough (env : SdkEnv) (k : Keeper) (bech : String)
    (addr : AccAddress) (d bz : Bytes)
    (h1 : env.accAddressFromBech32 bech = Except.ok addr)
    (h2 : k.querySmart addr d = Except.ok bz) :
    queryContractState env k bech QueryMethodContractStateSmart d =
      Except.ok (QueryResp.raw bz) := by
  unfold queryContractState
  rw [h1]
  dsimp only
  rw [if_neg (by decide), if_neg (by decide), if_pos rfl, h2]

def vmPayload : Bytes := "vm-response-bytes"

/-- C9 witness: the fixture keeper echoes the payload, and the handler
returns exactly those bytes. -/
theorem c9_contract_state_smart_passthrough_witness :
    queryContractState envX keeperX goodBech QueryMethodContractStateSmart vmPayload =
      Except.ok (QueryResp.raw vmPayload) :=
  c9_contract_state_smart_passthrough envX keeperX goodBech addrX vmPayload vmPayload rfl rfl

/-- C3: the `raw` submode, on a validly decoding address whose contract
storage lacks the queried key, succeeds with the empty sequence of
Models (keeper `QueryRaw` behaviour modelled from the spec). -/
theorem c3_raw_query_missing_key_empty (env : SdkEnv)
    (storage : AccAddress → Bytes → Option Bytes) (k : Keeper) (bech : String)
    (addr : AccAddress) (key : Bytes)
    (h1 : env.accAddressFromBech32 bech = Except.ok addr)
    (h2 : k.queryRaw = specQueryRaw storage)
    (h3 : storage addr key = none) :
    queryContractState env k bech QueryMethodContractStateRaw key =
      Except.ok (QueryResp.json (Json.arr [])) := by
  unfold queryContractState
  rw [h1]
  dsimp only
  rw [if_neg (by decide), if_pos rfl, h2]
  unfold specQueryRaw
  rw [h3]
  rfl

def storageEmpty : AccAddress → Bytes → Option Bytes := fun _ _ => none

def keeperRawX : Keeper := { keeperX with queryRaw := specQueryRaw storageEmpty }

def missingKey : Bytes := "missing-key"

/-- C3 witness: a raw query for a key absent from an empty storage
partition succeeds with the empty sequence. -/
theorem c3_raw_query_missing_key_empty_witness :
    queryContractState envX keeperRawX goodBech QueryMethodContractStateRaw missingKey =
      Except.ok (QueryResp.json (Json.arr [])) :=
  c3_raw_query_missing_key_empty envX storageEmpty keeperRawX goodBech addrX missingKey
    rfl rfl rfl

/-- C10: on a validly decoding address for which the keeper reports no
contract, the contract-info handler succeeds and replies with the
serialization of the absence value (JSON `null`); and any keeper/address
whose contract info serializes identically produces the identical reply,
so the caller cannot distinguish the two. -/
theorem c10_contract_info_absent (env : SdkEnv) (k : Keeper) (bech : String) (addr : AccAddress)
    (h1 : env.accAddressFromBech32 bech = Except.ok addr)
    (h2 : k.getContractInfo addr = none) :
    queryContractInfo env k bech = Except.ok (marshalContractInfoPtr env none) ∧
    (∀ (k2 : Keeper) (bech2 : String) (addr2 : AccAddress),
      env.accAddressFromBech32 bech2 = Except.ok addr2 →
      marshalContractInfoPtr env (k2.getContractInfo addr2) = marshalContractInfoPtr env none →
      queryContractInfo env k2 bech2 = queryContractInfo env k bech) := by
  have hmain : queryContractInfo env k bech = Except.ok (marshalContractInfoPtr env none) := by
    unfold queryContractInfo
    rw [h1]
    dsimp only
    rw [h2]
  refine ⟨hmain, ?_⟩
  intro k2 bech2 addr2 hdec hser
  rw [hmain]
  unfold queryContractInfo
  rw [hdec]
  dsimp only
  rw [hser]

/-- C10 witness: the fixture keeper has no contracts; the handler
succeeds with the `null` serialization. -/
theorem c10_contract_info_absent_witness :
    queryContractInfo envX keeperX goodBech = Except.ok (marshalContractInfoPtr envX none) :=
  (c10_contract_info_absent envX keeperX goodBech addrX rfl rfl).1

/-- The code-list entry the scan constructs for a found ID `j`. -/
def mkEntry (ci : Nat → CodeInfo) (j : Nat) : ListCodeResponse :=
  { id := j, creator := (ci j).creator, codeHash := (ci j).codeHash }

/-- The entries for the `n` consecutive IDs `i+1, i+2, ..., i+n`, in
increasing ID order. -/
def expectedEntries (ci : Nat → CodeInfo) (i : Nat) : Nat → List ListCodeResponse
  | 0 => []
  | n + 1 => mkEntry ci (i + 1) :: expectedEntries ci (i + 1) n

theorem codeListLoop_some (g : Nat → Option CodeInfo) (ci : Nat → CodeInfo) (m : Nat) :
    ∀ (fuel i : Nat) (acc : List ListCodeResponse),
      (∀ j, i < j → j ≤ m → g j = some (ci j)) →
      g (m + 1) = none → i ≤ m → m - i < fuel →
      codeListLoop g fuel i (some acc) =
        some (acc ++ expectedEntries ci i (m - i)) := by
  intro fuel
  induction fuel with
  | zero =>
    intro i acc _ _ hi hf
    exact absurd hf (by omega)
  | succ fuel ih =>
    intro i acc hsome hstop hi hf
    by_cases him : i = m
    · subst him
      unfold codeListLoop
      rw [hstop]
      simp [expectedEntries]
    · have hlt : i < m := lt_of_le_of_ne hi him
      have hg : g (i + 1) = some (ci (i + 1)) := hsome (i + 1) (by omega) (by omega)
      have hrec := ih (i + 1) (acc ++ [mkEntry ci (i + 1)])
        (fun j hj1 hj2 => hsome j (by omega) hj2) hstop (by omega) (by omega)
      unfold codeListLoop
      rw [hg]
      dsimp only
      rw [show (goAppend (some acc)
            { id := i + 1, creator := (ci (i + 1)).creator, codeHash := (ci (i + 1)).codeHash }
              : Option (List ListCodeResponse)) =
          some (acc ++ [mkEntry ci (i + 1)]) from rfl]
      rw [hrec]
      rw [show m - i = (m - (i + 1)) + 1 by omega]
      show _ = some (acc ++ (mkEntry ci (i + 1) :: expectedEntries ci (i + 1) (m - (i + 1))))
      simp

theorem codeListLoop_from_start (g : Nat → Option CodeInfo) (ci : Nat → CodeInfo)
    (m fuel : Nat)
    (hsome : ∀ j, 1 ≤ j → j ≤ m → g j = some (ci j))
    (hstop : g (m + 1) = none) (hf : m < fuel) :
    (m = 0 → codeListLoop g fuel 0 none = none) ∧
    (1 ≤ m → codeListLoop g fuel 0 none = some (expectedEntries ci 0 m)) := by
  cases fuel with
  | zero => exact absurd hf (by omega)
  | succ fuel =>
    constructor
    · intro hm
      subst hm
      unfold codeListLoop
      rw [show g (0 + 1) = none from hstop]
    · intro hm
      obtain ⟨n, rfl⟩ : ∃ n, m = n + 1 := ⟨m - 1, by omega⟩
      have h1 : g 1 = some (ci 1) := hsome 1 le_rfl (by omega)
      have hrec := codeListLoop_some g ci (n + 1) fuel 1 [mkEntry ci 1]
        (fun j hj1 hj2 => hsome j (by omega) hj2) hstop (by omega) (by omega)
      have hstep : codeListLoop g (fuel + 1) 0 none =
          codeListLoop g fuel 1 (some [mkEntry ci 1]) := by
        conv_lhs => unfold codeListLoop
        rw [show g (0 + 1) = some (ci 1) from h1]
        dsimp only
        rfl
      rw [hstep, hrec]
      rfl

/-- C7: starting at ID 1 and incrementing by 1, the code-list scan
appends one `(id, creator, code_hash)` entry per found ID and stops at
the first ID the keeper reports absent: when IDs 1..m are present and
m+1 is absent, the accumulated entries are exactly those of IDs 1..m in
increasing order (`expectedEntries ci 0 m`), and (for m ≥ 1) the
handler replies with exactly that array. -/
theorem c7_code_list_scan (env : SdkEnv) (k : Keeper) (ci : Nat → CodeInfo) (m fuel : Nat)
    (hsome : ∀ j, 1 ≤ j → j ≤ m → k.getCodeInfo j = some (ci j))
    (hstop : k.getCodeInfo (m + 1) = none)
    (hf : m < fuel) :
    (codeListLoop k.getCodeInfo fuel 0 none).getD [] = expectedEntries ci 0 m ∧
    (1 ≤ m → queryCodeList env k fuel =
      Except.ok (QueryResp.json (Json.arr
        ((expectedEntries ci 0 m).map (jsonOfListCode env))))) := by
  have h := codeListLoop_from_start k.getCodeInfo ci m fuel hsome hstop hf
  constructor
  · rcases Nat.eq_zero_or_pos m with hm | hm
    · rw [h.1 hm, hm]
      rfl
    · rw [h.2 hm]
      rfl
  · intro hm
    unfold queryCodeList
    rw [h.2 hm]
    rfl

def hashX : String := "code-hash"

def ciX : Nat → CodeInfo := fun j => { creator := [j], codeHash := hashX }

/-- Fixture keeper for the code-list scan: code info present for IDs
1, 2 and 4 but absent for ID 3. -/
def keeper124 : Keeper :=
  { keeperX with getCodeInfo := fun j =>
      if j = 3 then none else if j ≤ 4 then some (ciX j) else none }

/-- C7 witness: on the keeper with CodeInfo for IDs {1, 2, 4} but not
3, the scan returns exactly the entries for IDs 1 and 2. -/
theorem c7_code_list_scan_witness :
    (codeListLoop keeper124.getCodeInfo 9 0 none).getD [] =
      [mkEntry ciX 1, mkEntry ciX 2] := by
  have h := c7_code_list_scan envX keeper124 ciX 2 9
    (fun j h1 h2 => by interval_cases j <;> rfl) rfl (by omega)
  rw [h.1]
  rfl
